import Mathlib

/-!
Shallow embedding of `my_model_selectors.py` (hidden-state-count model
selection for sequence models) and verification of its specification.

Python floats are modelled as rationals (`ℚ`); the external hmmlearn
fitter and scorer are modelled by an explicit environment (`FitEnv`)
whose `fitOk` predicate says whether `GaussianHMM(...).fit` converges and
whose `score` function models `model.score` (returning `none` where the
Python call raises).  A fitted `GaussianHMM` is determined by the data it
was fit on, the requested component count and the seed, since fitting is
deterministic given the seed; `HMM` records exactly those.
-/

/-- One observation sequence: an ordered list of feature vectors. -/
abbrev ObsSeq := List (List ℚ)

/-- A flattened representation: concatenated observation rows (`self.X`)
plus the per-sequence length list (`self.lengths`). -/
structure FlatData where
  rows : List (List ℚ)
  lens : List Nat
deriving DecidableEq

/-- A fitted model, as observable by the selectors: the requested number of
hidden states (`n_components`), the flattened data it was fit on, and the
random seed used.  Fitting is deterministic given these. -/
structure HMM where
  n_components : Nat
  trainX : FlatData
  seed : Nat
deriving DecidableEq

/-- Environment modelling the external collaborators: `fitOk X n seed` says
whether `GaussianHMM(n_components=n, random_state=seed).fit(X, lengths)`
succeeds; `score m d` models `m.score(d.rows, d.lens)` with `none` for a
raised exception; `log` models `np.log` on the frame count. -/
structure FitEnv where
  fitOk : FlatData → Nat → Nat → Bool
  score : HMM → FlatData → Option ℚ
  log : Nat → ℚ

/-- The state of a constructed `ModelSelector`: the two corpus mappings
(`self.words`, `self.hwords`, modelled as association lists in dict
insertion order), the target item's own sequences and flattened data, the
target label and the configuration fields. -/
structure ModelSelector where
  words : List (String × List ObsSeq)
  hwords : List (String × FlatData)
  sequences : List ObsSeq
  X : FlatData
  this_word : String
  n_constant : Nat
  min_n_components : Nat
  max_n_components : Nat
  random_state : Nat
  verbose : Bool
deriving DecidableEq

/-- `ModelSelector.__init__`: looks the target label up in both corpus
mappings (each a Python dict subscript, raising `KeyError` when absent,
modelled by `none`); on success stores the corpus and configuration. -/
def ModelSelector.init (all_word_sequences : List (String × List ObsSeq))
    (all_word_Xlengths : List (String × FlatData)) (this_word : String)
    (n_constant min_n max_n random_state : Nat) (verbose : Bool) :
    Option ModelSelector :=
  match all_word_sequences.lookup this_word with
  | none => none
  | some seqs =>
    match all_word_Xlengths.lookup this_word with
    | none => none
    | some xl =>
      some ⟨all_word_sequences, all_word_Xlengths, seqs, xl, this_word,
            n_constant, min_n, max_n, random_state, verbose⟩

/-- `ModelSelector.base_model`: attempts to fit a model with `num_states`
hidden states on this item's flattened data with the fixed seed; returns
`none` (Python `None`) when the fit raises. -/
def base_model (env : FitEnv) (s : ModelSelector) (num_states : Nat) : Option HMM :=
  if env.fitOk s.X num_states s.random_state then
    some ⟨num_states, s.X, s.random_state⟩
  else
    none

/-- `range(self.min_n_components, self.max_n_components + 1)`. -/
def candidateRange (s : ModelSelector) : List Nat :=
  List.range' s.min_n_components (s.max_n_components + 1 - s.min_n_components)

/-- `SelectorConstant.select`: returns `base_model(n_constant)`. -/
def SelectorConstant.select (env : FitEnv) (s : ModelSelector) : Option HMM :=
  base_model env s s.n_constant

/-- One iteration of the `SelectorBIC.select` loop body (the `try:` block
for a single `num_states`): fit, compute
`p = n*(n-1) + 2*len(X[0])*n` and `-2*logL + p*log(len(X))`.  Any raised
exception (`None.score`, `X[0]` on empty `X`, failed `score`) is caught by
the bare `except`, modelled by `none`. -/
def bicCandidate (env : FitEnv) (s : ModelSelector) (n : Nat) : Option (ℚ × HMM) :=
  match base_model env s n with
  | none => none
  | some m =>
    match s.X.rows.head? with
    | none => none
    | some row =>
      match env.score m s.X with
      | none => none
      | some logL =>
        some (-2 * logL + ((n * (n - 1) + 2 * row.length * n : ℕ) : ℚ) * env.log s.X.rows.length, m)

/-- Best-so-far update of the BIC loop: keep the strictly smaller score
(`if score < best_score`), the running best starting at `+inf`/`None`. -/
def updateMin (best : Option (ℚ × HMM)) (c : Option (ℚ × HMM)) : Option (ℚ × HMM) :=
  match c with
  | none => best
  | some (q, m) =>
    match best with
    | none => some (q, m)
    | some (bq, bm) => if q < bq then some (q, m) else some (bq, bm)

/-- Fold a per-candidate step over the candidate range while threading the
selector state through each iteration (the imperative loop reads the
selector but yields it back unchanged at every step). -/
def threadFold {β : Type} (f : ModelSelector → β → Nat → β) (s : ModelSelector)
    (b : β) (l : List Nat) : β × ModelSelector :=
  l.foldl (fun p n => (f p.2 p.1 n, p.2)) (b, s)

/-- `SelectorBIC.select` with the final selector state: sweep the range
accumulating the minimum-score model, then `if not best_model_so_far:
return self.base_model(self.n_constant)`. -/
def SelectorBIC.selectM (env : FitEnv) (s : ModelSelector) :
    Option HMM × ModelSelector :=
  let p := threadFold (fun t b n => updateMin b (bicCandidate env t n)) s none (candidateRange s)
  (match p.1 with
   | none => base_model env p.2 p.2.n_constant
   | some c => some c.2, p.2)

/-- `SelectorBIC.select`. -/
def SelectorBIC.select (env : FitEnv) (s : ModelSelector) : Option HMM :=
  (SelectorBIC.selectM env s).1

/-- The body of the inner `try:` of `SelectorDIC.select` for one other
word `w`: construct a `ModelSelector` for `w` (the dict lookups may raise
`KeyError`), fit at the candidate state count on `w`'s data, and score the
fitted model on `w`'s own flattened data.  `none` models any exception
reaching the inner `except` (which then decrements `number_of_words`). -/
def dicOther (env : FitEnv) (s : ModelSelector) (word : String) (n : Nat) : Option ℚ :=
  match ModelSelector.init s.words s.hwords word s.n_constant
      s.min_n_components s.max_n_components s.random_state s.verbose with
  | none => none
  | some ms =>
    match base_model env ms n with
    | none => none
    | some m => env.score m ms.X

/-- Best-so-far update of the DIC loop: `if score > best_score_so_far`
(starting from `-inf`/component count `0`) replace the best score and the
best number of components with `q` and `n`. -/
def updateGt (n : Nat) (best : Option ℚ × Nat) (q : ℚ) : Option ℚ × Nat :=
  match best.1 with
  | none => (some q, n)
  | some b => if b < q then (some q, n) else best

/-- The inner `for word in words:` loop of `SelectorDIC.select`.  The
running state is the accumulated log-likelihood of the other words (`acc`)
and `number_of_words` (`nw`, an integer decremented on each failed other
word).  After each word — success or failure — the score
`log_likelihood_of_i - acc / (number_of_words - 1)` is recomputed and
compared against the best so far; a zero denominator raises
`ZeroDivisionError`, which escapes to the outer `except`, ending the
candidate's evaluation while keeping the best found so far. -/
def dicInner (env : FitEnv) (s : ModelSelector) (L : ℚ) (n : Nat) :
    List String → ℚ → Int → (Option ℚ × Nat) → (Option ℚ × Nat)
  | [], _, _, best => best
  | w :: ws, acc, nw, best =>
    let step : ℚ × Int :=
      match dicOther env s w n with
      | some v => (acc + v, nw)
      | none => (acc, nw - 1)
    if step.2 - 1 = 0 then best
    else
      dicInner env s L n ws step.1 step.2
        (updateGt n best (L - step.1 / ((step.2 - 1 : Int) : ℚ)))

/-- One iteration of the outer loop of `SelectorDIC.select` for a single
candidate `num_states`: compute the target's own log-likelihood (any
failure aborts the candidate, keeping the best so far), list the vocabulary
keys, record their number, remove the target (`ValueError` if absent,
caught by the outer `except`), and run the inner loop over the remaining
words. -/
def dicCandidate (env : FitEnv) (s : ModelSelector) (best : Option ℚ × Nat)
    (n : Nat) : Option ℚ × Nat :=
  match base_model env s n with
  | none => best
  | some m =>
    match env.score m s.X with
    | none => best
    | some L =>
      let keys := s.words.map Prod.fst
      if s.this_word ∈ keys then
        dicInner env s L n (keys.erase s.this_word) 0 (keys.length : Int) best
      else best

/-- `SelectorDIC.select` with the final selector state: sweep the range,
then `if not best_number_of_components: return base_model(n_constant)` —
note that a best count of `0` is falsy — else refit at the best count. -/
def SelectorDIC.selectM (env : FitEnv) (s : ModelSelector) :
    Option HMM × ModelSelector :=
  let p := threadFold (fun t b n => dicCandidate env t b n) s (none, 0) (candidateRange s)
  (if p.1.2 = 0 then base_model env p.2 p.2.n_constant
   else base_model env p.2 p.1.2, p.2)

/-- `SelectorDIC.select`. -/
def SelectorDIC.select (env : FitEnv) (s : ModelSelector) : Option HMM :=
  (SelectorDIC.selectM env s).1

/-- Modelled from the spec: the combine-sequences utility
(`asl_utils.combine_sequences`, external to `src/`) — "concatenation
utility that reassembles a subset of per-item sequences into the same flat
representation": concatenate the sequences at the given indices and record
each one's length. -/
def combine_sequences (split_index_list : List Nat) (sequences : List ObsSeq) : FlatData :=
  ⟨(split_index_list.map (fun i => sequences.getD i [])).flatten,
   split_index_list.map (fun i => (sequences.getD i []).length)⟩

/-- Fold sizes of `sklearn.model_selection.KFold(n_splits=k)` on `n`
samples without shuffling: the first `n % k` folds get `n / k + 1`
samples, the rest `n / k`. -/
def kfoldSizes (k n : Nat) : List Nat :=
  (List.range k).map (fun i => n / k + if i < n % k then 1 else 0)

/-- The `(start, stop)` index bounds of each contiguous test fold. -/
def kfoldBounds (k n : Nat) : List (Nat × Nat) :=
  ((kfoldSizes k n).foldl
    (fun (acc : List (Nat × Nat) × Nat) sz =>
      (acc.1 ++ [(acc.2, acc.2 + sz)], acc.2 + sz)) ([], 0)).1

/-- The train-index lists yielded by `KFold().split`: for each fold, every
sample index outside the fold's test block, in increasing order. -/
def kfoldTrainSets (k n : Nat) : List (List Nat) :=
  (kfoldBounds k n).map (fun b => (List.range n).filter (fun j => j < b.1 ∨ b.2 ≤ j))

/-- The (model, scoring data) pair of each fold iteration of
`SelectorCV.select`: the scored model is `self.base_model(num_states)` —
fit on the item's full flattened data — while the data it is scored
against is the fold's training sequences flattened via
`combine_sequences`.  `KFold()` defaults to 5 splits. -/
def cvScoredPairs (env : FitEnv) (s : ModelSelector) (n : Nat) :
    List (Option HMM × FlatData) :=
  (kfoldTrainSets 5 s.sequences.length).map
    (fun tr => (base_model env s n, combine_sequences tr s.sequences))

/-- One iteration of the outer loop of `SelectorCV.select` for a single
candidate: `KFold().split` raises when there are fewer than 5 sequences
(caught by the outer `except`, skipping the candidate); otherwise each
fold OVERWRITES `sum_log_likelihood` with that fold's log-likelihood and
increments `count_log_likelihood` when scoring succeeds; finally
`sum / count` raises `ZeroDivisionError` when no fold scored.  The
returned model binding is the one left by the last fold iteration. -/
def cvCandidate (env : FitEnv) (s : ModelSelector) (n : Nat) :
    Option (ℚ × Option HMM) :=
  if s.sequences.length < 5 then none
  else
    let r := (cvScoredPairs env s n).foldl
      (fun (sc : ℚ × Nat) pr =>
        match pr.1 with
        | none => sc
        | some m =>
          match env.score m pr.2 with
          | none => sc
          | some v => (v, sc.2 + 1)) (0, 0)
    if r.2 = 0 then none else some (r.1 / (r.2 : ℚ), base_model env s n)

/-- Best-so-far update of the CV loop: `if score > best_score_so_far`
(starting from `-inf`/`None`) replace the best score and best model. -/
def updateGtCV (best : Option ℚ × Option HMM) (c : Option (ℚ × Option HMM)) :
    Option ℚ × Option HMM :=
  match c with
  | none => best
  | some (q, m) =>
    match best.1 with
    | none => (some q, m)
    | some b => if b < q then (some q, m) else best

/-- `SelectorCV.select` with the final selector state: sweep the range,
then `if not best_model_so_far: return base_model(n_constant)`. -/
def SelectorCV.selectM (env : FitEnv) (s : ModelSelector) :
    Option HMM × ModelSelector :=
  let p := threadFold (fun t b n => updateGtCV b (cvCandidate env t n)) s (none, none) (candidateRange s)
  (match p.1.2 with
   | none => base_model env p.2 p.2.n_constant
   | some m => some m, p.2)

/-- `SelectorCV.select`. -/
def SelectorCV.select (env : FitEnv) (s : ModelSelector) : Option HMM :=
  (SelectorCV.selectM env s).1

/-- The closed set of selection strategies. -/
inductive Strategy
  | constant
  | bic
  | dic
  | cv
deriving DecidableEq

/-- Strategy dispatch for `select()`, together with the selector state the
call leaves behind. -/
def ModelSelector.selectM : Strategy → FitEnv → ModelSelector → Option HMM × ModelSelector
  | .constant, env, s => (SelectorConstant.select env s, s)
  | .bic, env, s => SelectorBIC.selectM env s
  | .dic, env, s => SelectorDIC.selectM env s
  | .cv, env, s => SelectorCV.selectM env s

/-- `select()` of the given strategy. -/
def ModelSelector.select (st : Strategy) (env : FitEnv) (s : ModelSelector) : Option HMM :=
  (ModelSelector.selectM st env s).1

/-- Spec-side DIC candidate score, following the claim's words: when the
target's own fit succeeds and every other vocabulary item's fit at `n`
succeeds, the score is computed exactly once, after the accumulation over
all other items is complete, as `L_i` minus the accumulated sum of the
other items' log-likelihoods divided by `(count_of_others - 1)` where
`count_of_others` is the number of other items whose fit succeeded. -/
def dicScoreClaim (env : FitEnv) (s : ModelSelector) (n : Nat) : Option ℚ :=
  match base_model env s n with
  | none => none
  | some m =>
    match env.score m s.X with
    | none => none
    | some L =>
      let others := (s.words.map Prod.fst).erase s.this_word
      let vals := others.map (fun w => dicOther env s w n)
      if vals.all Option.isSome then
        some (L - (vals.reduceOption).sum / ((others.length : ℚ) - 1))
      else none

/-- Spec-side DIC selection, following the claim's words: the model at the
maximum-score candidate (per `dicScoreClaim`) is returned. -/
def selectDICclaim (env : FitEnv) (s : ModelSelector) : Option HMM :=
  let best := (candidateRange s).foldl
    (fun b n =>
      match dicScoreClaim env s n with
      | none => b
      | some q => updateGt n b q) (none, 0)
  if best.2 = 0 then base_model env s s.n_constant else base_model env s best.2

/-- Running prefix sums of a list, each offset by `acc`: the successive
values taken by the DIC accumulator when every other item succeeds. -/
def runningSumsFrom (acc : ℚ) : List ℚ → List ℚ
  | [] => []
  | v :: vs => (acc + v) :: runningSumsFrom (acc + v) vs

/-- Flattened data of the target item in the small corpora below. -/
def flatT : FlatData := ⟨[[0]], [1]⟩

/-- Flattened data of the other vocabulary items. -/
def flatA : FlatData := ⟨[[1]], [1]⟩

def flatB : FlatData := ⟨[[2]], [1]⟩

def flatC : FlatData := ⟨[[3]], [1]⟩

/-- A four-word corpus: target `"t"` plus `"a"`, `"b"`, `"c"`. -/
def wordsABC : List (String × List ObsSeq) :=
  [("t", [[[0]]]), ("a", [[[1]]]), ("b", [[[2]]]), ("c", [[[3]]])]

def hwordsABC : List (String × FlatData) :=
  [("t", flatT), ("a", flatA), ("b", flatB), ("c", flatC)]

/-- Selector for `"t"` on the four-word corpus, range `[2, 3]`,
`n_constant = 3`, seed `14`. -/
def sABC : ModelSelector :=
  ⟨wordsABC, hwordsABC, [[[0]]], flatT, "t", 3, 2, 3, 14, false⟩

/-- A fitter environment in which every fit converges and the
log-likelihoods depend only on the fitted item and the state count:
`"t"` scores `0` everywhere; at `n = 2` each other item scores `-1`;
at `n = 3` the items `"a"`, `"b"`, `"c"` score `-6`, `6`, `4`. -/
def envABC : FitEnv where
  fitOk := fun _ _ _ => true
  score := fun m _ =>
    if m.n_components = 2 then
      if m.trainX = flatT then some 0 else some (-1)
    else
      if m.trainX = flatT then some 0
      else if m.trainX = flatA then some (-6)
      else if m.trainX = flatB then some 6
      else some 4
  log := fun _ => 0

/-- Five one-frame sequences for the cross-validation fixtures. -/
def seqsCV : List ObsSeq := [[[0]], [[1]], [[2]], [[3]], [[4]]]

/-- Their flattened representation. -/
def flatCV : FlatData := ⟨[[0], [1], [2], [3], [4]], [1, 1, 1, 1, 1]⟩

/-- Selector for the one-word corpus with five sequences, range `[2, 4]`,
`n_constant = 3`, seed `14`. -/
def sCV : ModelSelector :=
  ⟨[("t", seqsCV)], [("t", flatCV)], seqsCV, flatCV, "t", 3, 2, 4, 14, false⟩

/-- A stub environment whose fits always converge and whose scorer returns
the constant log-likelihood `6` on every fold. -/
def envCV : FitEnv :=
  ⟨fun _ _ _ => true, fun _ _ => some 6, fun _ => 0⟩

/-- A stub environment in which every fit fails. -/
def envFail : FitEnv :=
  ⟨fun _ _ _ => false, fun _ _ => none, fun _ => 0⟩

/-- A one-word corpus selector with range `[2, 4]` and `n_constant = 3`. -/
def sFail : ModelSelector :=
  ⟨[("t", [[[0]]])], [("t", flatT)], [[[0]]], flatT, "t", 3, 2, 4, 14, false⟩

/-- A one-word corpus selector whose constant fallback count `7` lies
outside its range `[2, 2]`. -/
def sC6 : ModelSelector :=
  ⟨[("t", [[[0]]])], [("t", flatT)], [[[0]]], flatT, "t", 7, 2, 2, 14, false⟩

/-- An environment that fits successfully exactly at 7 states. -/
def envC6 : FitEnv :=
  ⟨fun _ n _ => n == 7, fun _ _ => some 0, fun _ => 0⟩

/-! ### Theorems -/

theorem threadFold_snd {β : Type} (f : ModelSelector → β → Nat → β)
    (s : ModelSelector) (b : β) (l : List Nat) :
    (threadFold f s b l).2 = s := by
  unfold threadFold
  induction l generalizing b with
  | nil => rfl
  | cons n l ih => exact ih (f s b n)

theorem threadFold_fst {β : Type} (f : ModelSelector → β → Nat → β)
    (s : ModelSelector) (b : β) (l : List Nat) :
    (threadFold f s b l).1 = l.foldl (f s) b := by
  unfold threadFold
  induction l generalizing b with
  | nil => rfl
  | cons n l ih => exact ih (f s b n)

theorem bic_select_eq (env : FitEnv) (s : ModelSelector) :
    SelectorBIC.select env s =
      match (candidateRange s).foldl (fun b n => updateMin b (bicCandidate env s n)) none with
      | none => base_model env s s.n_constant
      | some c => some c.2 := by
  simp only [SelectorBIC.select, SelectorBIC.selectM, threadFold_fst, threadFold_snd]

theorem dic_select_eq (env : FitEnv) (s : ModelSelector) :
    SelectorDIC.select env s =
      (if ((candidateRange s).foldl (dicCandidate env s) (none, 0)).2 = 0 then
        base_model env s s.n_constant
      else
        base_model env s ((candidateRange s).foldl (dicCandidate env s) (none, 0)).2) := by
  simp only [SelectorDIC.select, SelectorDIC.selectM, threadFold_fst, threadFold_snd]

theorem cv_select_eq (env : FitEnv) (s : ModelSelector) :
    SelectorCV.select env s =
      match ((candidateRange s).foldl (fun b n => updateGtCV b (cvCandidate env s n)) (none, none)).2 with
      | none => base_model env s s.n_constant
      | some m => some m := by
  simp only [SelectorCV.select, SelectorCV.selectM, threadFold_fst, threadFold_snd]

/-! ### Helper lemmas -/
theorem foldlId {α β : Type} (f : β → α → β) :
    ∀ (l : List α) (b : β), (∀ a ∈ l, ∀ x, f x a = x) → l.foldl f b = b
  | [], _, _ => rfl
  | a :: l, b, h => by
    rw [List.foldl_cons, h a (List.mem_cons_self a l)]
    exact foldlId f l b (fun a ha x => h a (List.mem_cons_of_mem _ ha) x)

theorem mem_candidateRange (s : ModelSelector) (n : Nat) :
    n ∈ candidateRange s ↔
      s.min_n_components ≤ n ∧ n ≤ s.max_n_components := by
  unfold candidateRange
  rw [List.mem_range'_1]
  omega

theorem base_model_eq_some (env : FitEnv) (s : ModelSelector) (k : Nat) (m : HMM)
    (h : base_model env s k = some m) : m = ⟨k, s.X, s.random_state⟩ := by
  unfold base_model at h
  split at h
  · exact (Option.some.inj h).symm
  · exact nomatch h

theorem base_model_none (env : FitEnv) (s : ModelSelector) (k : Nat)
    (h : env.fitOk s.X k s.random_state = false) :
    base_model env s k = none := by
  simp [base_model, h]

theorem bicCandidate_of_fitFail (env : FitEnv) (s : ModelSelector) (n : Nat)
    (h : base_model env s n = none) : bicCandidate env s n = none := by
  unfold bicCandidate
  rw [h]

theorem bicCandidate_model (env : FitEnv) (s : ModelSelector) (n : Nat)
    (q : ℚ) (m : HMM) (h : bicCandidate env s n = some (q, m)) :
    m = ⟨n, s.X, s.random_state⟩ := by
  unfold bicCandidate at h
  cases hb : base_model env s n with
  | none => rw [hb] at h; exact nomatch h
  | some m0 =>
    simp only [hb] at h
    cases hr : s.X.rows.head? with
    | none => rw [hr] at h; exact nomatch h
    | some row =>
      simp only [hr] at h
      cases hs : env.score m0 s.X with
      | none => rw [hs] at h; exact nomatch h
      | some logL =>
        simp only [hs] at h
        injection h with h1
        injection h1 with hq hm
        rw [← hm]
        exact base_model_eq_some env s n m0 hb

theorem updateMin_none_right (b : Option (ℚ × HMM)) : updateMin b none = b := rfl

theorem updateMin_eq_none (b c : Option (ℚ × HMM)) (h : updateMin b c = none) :
    b = none ∧ c = none := by
  unfold updateMin at h
  cases c with
  | none => exact ⟨h, rfl⟩
  | some p =>
    obtain ⟨q, m⟩ := p
    cases b with
    | none => exact nomatch h
    | some p0 =>
      obtain ⟨bq, bm⟩ := p0
      dsimp at h
      split at h <;> exact nomatch h

theorem updateMin_eq_some (b c : Option (ℚ × HMM)) (p : ℚ × HMM)
    (h : updateMin b c = some p) : b = some p ∨ c = some p := by
  unfold updateMin at h
  cases c with
  | none => exact Or.inl h
  | some pc =>
    obtain ⟨q, m⟩ := pc
    cases b with
    | none => exact Or.inr h
    | some pb =>
      obtain ⟨bq, bm⟩ := pb
      dsimp at h
      split at h
      · exact Or.inr h
      · exact Or.inl h

theorem updateMin_fst_le_b (b c : Option (ℚ × HMM)) (q0 : ℚ) (m0 : HMM)
    (hb : b = some (q0, m0)) (p : ℚ × HMM) (h : updateMin b c = some p) :
    p.1 ≤ q0 := by
  subst hb
  unfold updateMin at h
  cases c with
  | none => cases Option.some.inj h; exact le_refl _
  | some pc =>
    obtain ⟨q, m⟩ := pc
    dsimp at h
    split at h
    · cases Option.some.inj h
      exact le_of_lt (by assumption)
    · cases Option.some.inj h
      exact le_refl _

theorem updateMin_fst_le_c (b c : Option (ℚ × HMM)) (q1 : ℚ) (m1 : HMM)
    (hc : c = some (q1, m1)) (p : ℚ × HMM) (h : updateMin b c = some p) :
    p.1 ≤ q1 := by
  subst hc
  unfold updateMin at h
  cases b with
  | none => cases Option.some.inj h; exact le_refl _
  | some pb =>
    obtain ⟨bq, bm⟩ := pb
    dsimp at h
    split at h
    · cases Option.some.inj h
      exact le_refl _
    · cases Option.some.inj h
      exact le_of_not_lt (by assumption)

theorem foldMin_none (c : Nat → Option (ℚ × HMM)) :
    ∀ (l : List Nat) (b : Option (ℚ × HMM)),
      l.foldl (fun b' n => updateMin b' (c n)) b = none →
      b = none ∧ ∀ n ∈ l, c n = none
  | [], b, h => ⟨h, fun n hn => absurd hn (List.not_mem_nil n)⟩
  | n :: l, b, h => by
    rw [List.foldl_cons] at h
    obtain ⟨h1, h2⟩ := foldMin_none c l (updateMin b (c n)) h
    obtain ⟨hb, hc⟩ := updateMin_eq_none b (c n) h1
    refine ⟨hb, fun n' hn' => ?_⟩
    rcases List.mem_cons.mp hn' with rfl | hmem
    · exact hc
    · exact h2 n' hmem

theorem foldMin_spec (c : Nat → Option (ℚ × HMM)) :
    ∀ (l : List Nat) (b : Option (ℚ × HMM)) (q : ℚ) (m : HMM),
      l.foldl (fun b' n => updateMin b' (c n)) b = some (q, m) →
      (b = some (q, m) ∨ ∃ n ∈ l, c n = some (q, m)) ∧
      (∀ q0 m0, b = some (q0, m0) → q ≤ q0) ∧
      (∀ n ∈ l, ∀ q' m', c n = some (q', m') → q ≤ q')
  | [], b, q, m, h => by
    have hb0 : b = some (q, m) := h
    refine ⟨Or.inl hb0, fun q0 m0 hb => ?_, fun n hn => absurd hn (List.not_mem_nil n)⟩
    rw [hb0] at hb
    injection hb with h1
    injection h1 with e1 _
    exact le_of_eq e1
  | n :: l, b, q, m, h => by
    rw [List.foldl_cons] at h
    obtain ⟨hmem, hinit, hall⟩ := foldMin_spec c l (updateMin b (c n)) q m h
    refine ⟨?_, ?_, ?_⟩
    · rcases hmem with hu | ⟨n', hn', hc⟩
      · rcases updateMin_eq_some b (c n) (q, m) hu with hb | hc
        · exact Or.inl hb
        · exact Or.inr ⟨n, List.mem_cons_self n l, hc⟩
      · exact Or.inr ⟨n', List.mem_cons_of_mem _ hn', hc⟩
    · intro q0 m0 hb
      cases hu : updateMin b (c n) with
      | none =>
        rw [hb] at hu
        exact absurd (updateMin_eq_none _ _ hu).1 (by simp)
      | some p =>
        have hq : q ≤ p.1 := by
          obtain ⟨pq, pm⟩ := p
          exact hinit pq pm hu
        exact le_trans hq (updateMin_fst_le_b b (c n) q0 m0 hb p hu)
    · intro n' hn' q' m' hc
      rcases List.mem_cons.mp hn' with rfl | hmem
      · cases hu : updateMin b (c n') with
        | none =>
          rw [hc] at hu
          exact absurd (updateMin_eq_none _ _ hu).2 (by simp)
        | some p =>
          have hq : q ≤ p.1 := by
            obtain ⟨pq, pm⟩ := p
            exact hinit pq pm hu
          exact le_trans hq (updateMin_fst_le_c b (c n') q' m' hc p hu)
      · exact hall n' hmem q' m' hc

theorem updateGtCV_none_right (b : Option ℚ × Option HMM) : updateGtCV b none = b := rfl

theorem updateGtCV_snd (b : Option ℚ × Option HMM) (c : Option (ℚ × Option HMM)) :
    (updateGtCV b c).2 = b.2 ∨ ∃ q, c = some (q, (updateGtCV b c).2) := by
  unfold updateGtCV
  cases c with
  | none => exact Or.inl rfl
  | some p =>
    obtain ⟨q, m⟩ := p
    cases hb : b.1 with
    | none => exact Or.inr ⟨q, rfl⟩
    | some b0 =>
      dsimp
      split
      · exact Or.inr ⟨q, rfl⟩
      · exact Or.inl rfl

theorem foldGtCV_snd (c : Nat → Option (ℚ × Option HMM)) :
    ∀ (l : List Nat) (b : Option ℚ × Option HMM),
      (l.foldl (fun b' n => updateGtCV b' (c n)) b).2 = b.2 ∨
      ∃ n ∈ l, ∃ q, c n = some (q, (l.foldl (fun b' n => updateGtCV b' (c n)) b).2)
  | [], _ => Or.inl rfl
  | n :: l, b => by
    rw [List.foldl_cons]
    rcases foldGtCV_snd c l (updateGtCV b (c n)) with h | ⟨n', hn', q, hq⟩
    · rcases updateGtCV_snd b (c n) with h2 | ⟨q, hq⟩
      · exact Or.inl (h.trans h2)
      · exact Or.inr ⟨n, List.mem_cons_self n l, q, by rw [h]; exact hq⟩
    · exact Or.inr ⟨n', List.mem_cons_of_mem _ hn', q, hq⟩

theorem cvCandidate_of_fitFail (env : FitEnv) (s : ModelSelector) (n : Nat)
    (h : base_model env s n = none) : cvCandidate env s n = none := by
  unfold cvCandidate
  split
  · rfl
  · have hr : (cvScoredPairs env s n).foldl
        (fun (sc : ℚ × Nat) pr =>
          match pr.1 with
          | none => sc
          | some m =>
            match env.score m pr.2 with
            | none => sc
            | some v => (v, sc.2 + 1)) (0, 0) = (0, 0) := by
      refine foldlId _ _ _ (fun pr hpr x => ?_)
      obtain ⟨tr, htr, rfl⟩ := List.mem_map.mp hpr
      rw [h]
    rw [hr]
    rfl

theorem cvCandidate_model (env : FitEnv) (s : ModelSelector) (n : Nat)
    (q : ℚ) (mo : Option HMM) (h : cvCandidate env s n = some (q, mo)) :
    mo = base_model env s n := by
  unfold cvCandidate at h
  split at h
  · exact nomatch h
  · dsimp at h
    split at h
    · exact nomatch h
    · injection h with h1
      injection h1 with _ hm
      exact hm.symm

theorem updateGt_snd (n : Nat) (b : Option ℚ × Nat) (q : ℚ) :
    (updateGt n b q).2 = b.2 ∨ (updateGt n b q).2 = n := by
  unfold updateGt
  cases hb : b.1 with
  | none => exact Or.inr rfl
  | some b0 =>
    dsimp
    split
    · exact Or.inr rfl
    · exact Or.inl rfl

theorem dicInner_snd (env : FitEnv) (s : ModelSelector) (L : ℚ) (n : Nat) :
    ∀ (ws : List String) (acc : ℚ) (nw : Int) (b : Option ℚ × Nat),
      (dicInner env s L n ws acc nw b).2 = b.2 ∨ (dicInner env s L n ws acc nw b).2 = n
  | [], _, _, _ => Or.inl rfl
  | w :: ws, acc, nw, b => by
    show (if _ then b else dicInner env s L n ws _ _ (updateGt n b _)).2 = b.2 ∨
      (if _ then b else dicInner env s L n ws _ _ (updateGt n b _)).2 = n
    split
    · exact Or.inl rfl
    · rcases dicInner_snd env s L n ws _ _ (updateGt n b _) with h | h
      · rcases updateGt_snd n b _ with h2 | h2
        · exact Or.inl (h.trans h2)
        · exact Or.inr (h.trans h2)
      · exact Or.inr h

theorem dicCandidate_of_fitFail (env : FitEnv) (s : ModelSelector)
    (b : Option ℚ × Nat) (n : Nat) (h : base_model env s n = none) :
    dicCandidate env s b n = b := by
  unfold dicCandidate
  rw [h]

theorem dicCandidate_snd (env : FitEnv) (s : ModelSelector) (b : Option ℚ × Nat)
    (n : Nat) : (dicCandidate env s b n).2 = b.2 ∨ (dicCandidate env s b n).2 = n := by
  unfold dicCandidate
  cases base_model env s n with
  | none => exact Or.inl rfl
  | some m =>
    dsimp
    cases env.score m s.X with
    | none => exact Or.inl rfl
    | some L =>
      dsimp
      split
      · exact dicInner_snd env s L n _ 0 _ b
      · exact Or.inl rfl

theorem foldDic_snd (env : FitEnv) (s : ModelSelector) :
    ∀ (l : List Nat) (b : Option ℚ × Nat),
      (l.foldl (dicCandidate env s) b).2 = b.2 ∨ (l.foldl (dicCandidate env s) b).2 ∈ l
  | [], _ => Or.inl rfl
  | n :: l, b => by
    rw [List.foldl_cons]
    rcases foldDic_snd env s l (dicCandidate env s b n) with h | h
    · rcases dicCandidate_snd env s b n with h2 | h2
      · exact Or.inl (h.trans h2)
      · refine Or.inr ?_
        rw [h, h2]
        exact List.mem_cons_self n l
    · exact Or.inr (List.mem_cons_of_mem _ h)

theorem select_constant_def (env : FitEnv) (s : ModelSelector) :
    ModelSelector.select Strategy.constant env s = SelectorConstant.select env s := rfl

theorem select_bic_def (env : FitEnv) (s : ModelSelector) :
    ModelSelector.select Strategy.bic env s = SelectorBIC.select env s := rfl

theorem select_dic_def (env : FitEnv) (s : ModelSelector) :
    ModelSelector.select Strategy.dic env s = SelectorDIC.select env s := rfl

theorem select_cv_def (env : FitEnv) (s : ModelSelector) :
    ModelSelector.select Strategy.cv env s = SelectorCV.select env s := rfl

theorem select_allfail (env : FitEnv) (s : ModelSelector)
    (hfail : ∀ n, s.min_n_components ≤ n → n ≤ s.max_n_components →
      env.fitOk s.X n s.random_state = false) :
    ∀ st : Strategy, st ≠ Strategy.constant →
      ModelSelector.select st env s = base_model env s s.n_constant := by
  have hbm : ∀ n ∈ candidateRange s, base_model env s n = none := fun n hn => by
    obtain ⟨h1, h2⟩ := (mem_candidateRange s n).mp hn
    exact base_model_none env s n (hfail n h1 h2)
  intro st hst
  cases st with
  | constant => exact absurd rfl hst
  | bic =>
    rw [select_bic_def, bic_select_eq]
    have hfold : (candidateRange s).foldl
        (fun b n => updateMin b (bicCandidate env s n)) none = none := by
      refine foldlId _ _ _ (fun n hn x => ?_)
      rw [bicCandidate_of_fitFail env s n (hbm n hn), updateMin_none_right]
    rw [hfold]
  | dic =>
    rw [select_dic_def, dic_select_eq]
    have hfold : (candidateRange s).foldl (dicCandidate env s) (none, 0) = (none, 0) := by
      refine foldlId _ _ _ (fun n hn x => ?_)
      exact dicCandidate_of_fitFail env s x n (hbm n hn)
    rw [hfold]
    rfl
  | cv =>
    rw [select_cv_def, cv_select_eq]
    have hfold : (candidateRange s).foldl
        (fun b n => updateGtCV b (cvCandidate env s n)) (none, none) = (none, none) := by
      refine foldlId _ _ _ (fun n hn x => ?_)
      rw [cvCandidate_of_fitFail env s n (hbm n hn), updateGtCV_none_right]
    rw [hfold]

/-- Claim C10: constructing a `ModelSelector` (any strategy) with a target
item label that is not a key of both corpus mappings fails with a lookup
error during construction rather than producing a selector instance;
construction succeeds exactly when the label is present in both mappings. -/
theorem init_requires_label_in_both (ws : List (String × List ObsSeq))
    (hws : List (String × FlatData)) (w : String) (nc mn mx seed : Nat) (vb : Bool) :
    (ModelSelector.init ws hws w nc mn mx seed vb).isSome ↔
      (ws.lookup w).isSome ∧ (hws.lookup w).isSome := by
  unfold ModelSelector.init
  cases ws.lookup w <;> cases hws.lookup w <;> simp

/-- Claim C9: for every strategy, `select()` leaves the two corpus mappings
(label to sequence list, label to flattened representation) exactly as they
were: no entry is added, removed, reordered or mutated. -/
theorem select_preserves_corpus (st : Strategy) (env : FitEnv) (s : ModelSelector) :
    (ModelSelector.selectM st env s).2.words = s.words ∧
    (ModelSelector.selectM st env s).2.hwords = s.hwords := by
  have h2 : (ModelSelector.selectM st env s).2 = s := by
    cases st with
    | constant => rfl
    | bic => show (SelectorBIC.selectM env s).2 = s
             simp only [SelectorBIC.selectM, threadFold_snd]
    | dic => show (SelectorDIC.selectM env s).2 = s
             simp only [SelectorDIC.selectM, threadFold_snd]
    | cv => show (SelectorCV.selectM env s).2 = s
            simp only [SelectorCV.selectM, threadFold_snd]
  rw [h2]
  exact ⟨rfl, rfl⟩

/-- Claim C8: determinism — for every strategy, two `select()` calls on the
same selector configuration (same corpus, item, seed and range, the fitting
environment being a fixed function of its inputs, i.e. fitting is
deterministic under the fixed seed) return models with the same hidden-state
count. -/
theorem select_deterministic (st : Strategy) (env : FitEnv)
    (s1 s2 : ModelSelector) (h : s1 = s2) :
    Option.map HMM.n_components (ModelSelector.select st env s1) =
      Option.map HMM.n_components (ModelSelector.select st env s2) := by
  rw [h]

theorem select_deterministic_witness :
    Option.map HMM.n_components (ModelSelector.select Strategy.bic envABC sABC) =
      Option.map HMM.n_components (ModelSelector.select Strategy.bic envABC sABC) :=
  select_deterministic Strategy.bic envABC sABC sABC rfl

/-- Claim C1 fails as stated: with a fitter that fails at every state count,
`select()` returns Python `None` — a null/absent result — instead of a usable
model or a surfaced error (shown for the BIC strategy on a concrete one-word
corpus). -/
theorem select_null_counterexample :
    ModelSelector.select Strategy.bic envFail sFail = none := by decide

/-- Claim C1 (amended): for every non-constant strategy, when no candidate in
the hyperparameter range fits, `select()` returns `base_model(n_constant)`;
when even that fallback fit fails, `select()` returns `None` (a null result)
to the caller rather than surfacing an error. -/
theorem select_fallback_or_none (env : FitEnv) (s : ModelSelector)
    (hfail : ∀ n, s.min_n_components ≤ n → n ≤ s.max_n_components →
      env.fitOk s.X n s.random_state = false) :
    ∀ st : Strategy, st ≠ Strategy.constant →
      ModelSelector.select st env s = base_model env s s.n_constant ∧
      (env.fitOk s.X s.n_constant s.random_state = false →
        ModelSelector.select st env s = none) := by
  intro st hst
  refine ⟨select_allfail env s hfail st hst, fun hc => ?_⟩
  rw [select_allfail env s hfail st hst]
  exact base_model_none env s s.n_constant hc

theorem select_fallback_or_none_witness :
    ModelSelector.select Strategy.bic envFail sFail = base_model envFail sFail sFail.n_constant ∧
    (envFail.fitOk sFail.X sFail.n_constant sFail.random_state = false →
      ModelSelector.select Strategy.bic envFail sFail = none) :=
  select_fallback_or_none envFail sFail (fun _ _ _ => rfl) Strategy.bic (by decide)

/-- Claim C6: fallback law — if the fitter fails for every candidate state
count in `[min_n_components, max_n_components]` but succeeds for
`n_constant`, every strategy (Constant excluded) returns the model fitted
with `n_constant` states. -/
theorem select_fallback_law (env : FitEnv) (s : ModelSelector)
    (hfail : ∀ n, s.min_n_components ≤ n → n ≤ s.max_n_components →
      env.fitOk s.X n s.random_state = false)
    (hconst : env.fitOk s.X s.n_constant s.random_state = true) :
    ∀ st : Strategy, st ≠ Strategy.constant →
      ModelSelector.select st env s = some ⟨s.n_constant, s.X, s.random_state⟩ := by
  intro st hst
  rw [select_allfail env s hfail st hst]
  simp [base_model, hconst]

theorem select_fallback_law_witness :
    ModelSelector.select Strategy.cv envC6 sC6 =
      some ⟨sC6.n_constant, sC6.X, sC6.random_state⟩ :=
  select_fallback_law envC6 sC6
    (fun n h1 h2 => by
      have hn : n = 2 := Nat.le_antisymm h2 h1
      subst hn
      rfl)
    rfl Strategy.cv (by decide)

/-- Claim C7: for every strategy, any model returned by `select()` has a
hidden-state count lying in `[min_n_components, max_n_components] ∪
{n_constant}`. -/
theorem select_state_count_in_range (env : FitEnv) (s : ModelSelector) :
    ∀ (st : Strategy) (m : HMM), ModelSelector.select st env s = some m →
      (s.min_n_components ≤ m.n_components ∧ m.n_components ≤ s.max_n_components) ∨
      m.n_components = s.n_constant := by
  intro st m hm
  cases st with
  | constant =>
    rw [select_constant_def] at hm
    rw [base_model_eq_some env s s.n_constant m hm]
    exact Or.inr rfl
  | bic =>
    rw [select_bic_def, bic_select_eq] at hm
    cases hf : (candidateRange s).foldl
        (fun b n => updateMin b (bicCandidate env s n)) none with
    | none =>
      rw [hf] at hm
      rw [base_model_eq_some env s s.n_constant m hm]
      exact Or.inr rfl
    | some p =>
      obtain ⟨q0, m0⟩ := p
      rw [hf] at hm
      replace hm : m0 = m := Option.some.inj hm
      subst hm
      obtain ⟨hmem, -, -⟩ := foldMin_spec _ _ _ q0 m0 hf
      rcases hmem with hb | ⟨n, hn, hc⟩
      · exact nomatch hb
      · rw [bicCandidate_model env s n q0 m0 hc]
        exact Or.inl ((mem_candidateRange s n).mp hn)
  | dic =>
    rw [select_dic_def, dic_select_eq] at hm
    by_cases h0 : ((candidateRange s).foldl (dicCandidate env s) (none, 0)).2 = 0
    · rw [if_pos h0] at hm
      rw [base_model_eq_some env s s.n_constant m hm]
      exact Or.inr rfl
    · rw [if_neg h0] at hm
      rcases foldDic_snd env s (candidateRange s) (none, 0) with h | h
      · exact absurd h h0
      · rw [base_model_eq_some env s _ m hm]
        exact Or.inl ((mem_candidateRange s _).mp h)
  | cv =>
    rw [select_cv_def, cv_select_eq] at hm
    cases hf : ((candidateRange s).foldl
        (fun b n => updateGtCV b (cvCandidate env s n)) (none, none)).2 with
    | none =>
      rw [hf] at hm
      rw [base_model_eq_some env s s.n_constant m hm]
      exact Or.inr rfl
    | some m0 =>
      rw [hf] at hm
      replace hm : m0 = m := Option.some.inj hm
      subst hm
      rcases foldGtCV_snd (cvCandidate env s) (candidateRange s) (none, none) with h | ⟨n, hn, q, hq⟩
      · rw [hf] at h
        exact nomatch h
      · rw [hf] at hq
        have hbm : some m0 = base_model env s n := cvCandidate_model env s n q (some m0) hq
        rw [base_model_eq_some env s n m0 hbm.symm]
        exact Or.inl ((mem_candidateRange s n).mp hn)

theorem select_state_count_in_range_witness :
    (sABC.min_n_components ≤ HMM.n_components ⟨3, flatT, 14⟩ ∧
      HMM.n_components ⟨3, flatT, 14⟩ ≤ sABC.max_n_components) ∨
    HMM.n_components ⟨3, flatT, 14⟩ = sABC.n_constant :=
  select_state_count_in_range envABC sABC Strategy.constant ⟨3, flatT, 14⟩ rfl

/-- When every other word's pipeline succeeds (with log-likelihoods `vs`)
and the denominator never vanishes, the DIC inner loop is the fold of the
best-so-far update over the intermediate scores `L - P/(nw - 1)` for each
running prefix sum `P` of `vs`. -/
theorem dicInner_all_ok (env : FitEnv) (s : ModelSelector) (L : ℚ) (n : Nat) :
    ∀ (ws : List String) (vs : List ℚ) (acc : ℚ) (nw : Int) (best : Option ℚ × Nat),
      ws.map (fun w => dicOther env s w n) = vs.map some →
      nw - 1 ≠ 0 →
      dicInner env s L n ws acc nw best =
        ((runningSumsFrom acc vs).map
          (fun t => L - t / ((nw - 1 : Int) : ℚ))).foldl
          (fun b q => updateGt n b q) best
  | [], vs, acc, nw, best, hmap, hd => by
    cases vs with
    | nil => rfl
    | cons v vs => exact nomatch hmap
  | w :: ws, vs, acc, nw, best, hmap, hd => by
    cases vs with
    | nil => exact nomatch hmap
    | cons v vs =>
      rw [List.map_cons, List.map_cons] at hmap
      injection hmap with h1 h2
      have hstep : dicInner env s L n (w :: ws) acc nw best =
          dicInner env s L n ws (acc + v) nw
            (updateGt n best (L - (acc + v) / ((nw - 1 : Int) : ℚ))) := by
        simp only [dicInner, h1]
        rw [if_neg hd]
      rw [hstep, runningSumsFrom, List.map_cons, List.foldl_cons]
      exact dicInner_all_ok env s L n ws vs (acc + v) nw
        (updateGt n best (L - (acc + v) / ((nw - 1 : Int) : ℚ))) h2 hd

/-- Reduction of a DIC candidate evaluation to the inner loop when the
target's own fit and score succeed and the target is a corpus key. -/
theorem dicCandidate_eq_inner (env : FitEnv) (s : ModelSelector)
    (best : Option ℚ × Nat) (n : Nat) (m : HMM) (L : ℚ)
    (hm : base_model env s n = some m) (hL : env.score m s.X = some L)
    (hmem : s.this_word ∈ s.words.map Prod.fst) :
    dicCandidate env s best n =
      dicInner env s L n ((s.words.map Prod.fst).erase s.this_word) 0
        ((s.words.map Prod.fst).length : Int) best := by
  unfold dicCandidate
  simp only [hm, hL]
  rw [if_pos hmem]

/-- Claim C3 is false on the code: on a four-word corpus where the target's
fit and every other item's fit succeed at every candidate, the code selects
the model at 3 states, while the claim's once-computed score
`L_i - sum_of_others / (count_of_others - 1)` is maximised at 2 states —
the code recomputes the score after each other item (so a candidate is
credited with its best intermediate value) and divides by the full word
count minus one instead of `count_of_others - 1`. -/
theorem dic_claim_counterexample :
    SelectorDIC.select envABC sABC = some ⟨3, flatT, 14⟩ ∧
    selectDICclaim envABC sABC = some ⟨2, flatT, 14⟩ ∧
    (⟨3, flatT, 14⟩ : HMM) ≠ ⟨2, flatT, 14⟩ := by
  have hkeys : sABC.words.map Prod.fst = ["t", "a", "b", "c"] := rfl
  have hthis : sABC.this_word = "t" := rfl
  have hr : candidateRange sABC = [2, 3] := rfl
  refine ⟨?_, ?_, by decide⟩
  · have h2 : dicCandidate envABC sABC (none, 0) 2 = (some 1, 2) := by
      have ha : dicOther envABC sABC "a" 2 = some (-1) := rfl
      have hb : dicOther envABC sABC "b" 2 = some (-1) := rfl
      have hc : dicOther envABC sABC "c" 2 = some (-1) := rfl
      have hbm : base_model envABC sABC 2 = some ⟨2, flatT, 14⟩ := rfl
      have hsc : envABC.score ⟨2, flatT, 14⟩ sABC.X = some 0 := rfl
      norm_num [dicCandidate, dicInner, updateGt, ha, hb, hc, hbm, hsc, hkeys,
        hthis, List.erase]
    have h3 : dicCandidate envABC sABC (some 1, 2) 3 = (some 2, 3) := by
      have ha : dicOther envABC sABC "a" 3 = some (-6) := rfl
      have hb : dicOther envABC sABC "b" 3 = some 6 := rfl
      have hc : dicOther envABC sABC "c" 3 = some 4 := rfl
      have hbm : base_model envABC sABC 3 = some ⟨3, flatT, 14⟩ := rfl
      have hsc : envABC.score ⟨3, flatT, 14⟩ sABC.X = some 0 := rfl
      norm_num [dicCandidate, dicInner, updateGt, ha, hb, hc, hbm, hsc, hkeys,
        hthis, List.erase]
    rw [dic_select_eq, hr, List.foldl_cons, h2, List.foldl_cons, h3,
      List.foldl_nil]
    rfl
  · have hs2 : dicScoreClaim envABC sABC 2 = some (3 / 2) := by
      have ha : dicOther envABC sABC "a" 2 = some (-1) := rfl
      have hb : dicOther envABC sABC "b" 2 = some (-1) := rfl
      have hc : dicOther envABC sABC "c" 2 = some (-1) := rfl
      have hbm : base_model envABC sABC 2 = some ⟨2, flatT, 14⟩ := rfl
      have hsc : envABC.score ⟨2, flatT, 14⟩ sABC.X = some 0 := rfl
      norm_num [dicScoreClaim, ha, hb, hc, hbm, hsc, hkeys, hthis, List.erase,
        List.reduceOption, List.filterMap_cons, List.filterMap_nil, List.sum_cons,
        List.sum_nil]
    have hs3 : dicScoreClaim envABC sABC 3 = some (-2) := by
      have ha : dicOther envABC sABC "a" 3 = some (-6) := rfl
      have hb : dicOther envABC sABC "b" 3 = some 6 := rfl
      have hc : dicOther envABC sABC "c" 3 = some 4 := rfl
      have hbm : base_model envABC sABC 3 = some ⟨3, flatT, 14⟩ := rfl
      have hsc : envABC.score ⟨3, flatT, 14⟩ sABC.X = some 0 := rfl
      norm_num [dicScoreClaim, ha, hb, hc, hbm, hsc, hkeys, hthis, List.erase,
        List.reduceOption, List.filterMap_cons, List.filterMap_nil, List.sum_cons,
        List.sum_nil]
    have hfold : selectDICclaim envABC sABC =
        (if ((updateGt 3 (updateGt 2 (none, 0) (3 / 2)) (-2)).2 = 0) then
          base_model envABC sABC sABC.n_constant
        else base_model envABC sABC (updateGt 3 (updateGt 2 (none, 0) (3 / 2)) (-2)).2) := by
      simp only [selectDICclaim, hr, List.foldl_cons, List.foldl_nil, hs2, hs3]
    rw [hfold]
    norm_num [updateGt]
    rfl

/-- Claim C3 (amended): when the target's fit and score succeed at a
candidate `n` and every other vocabulary item's pipeline at `n` succeeds
(with log-likelihoods `vs`, in corpus order), the candidate's evaluation is
not a single score computed after the accumulation: it folds the best-so-far
update over one intermediate score per other item, `L - P/(M - 1)` for each
running prefix sum `P` of `vs`, where the denominator `M - 1` is the full
vocabulary size (target included) minus one — the count of other items, not
that count minus one; the model refit at the best-scoring count is
returned. -/
theorem dic_candidate_amended (env : FitEnv) (s : ModelSelector) (n : Nat)
    (m : HMM) (L : ℚ) (vs : List ℚ) (best : Option ℚ × Nat)
    (hm : base_model env s n = some m) (hL : env.score m s.X = some L)
    (hmem : s.this_word ∈ s.words.map Prod.fst)
    (hvs : ((s.words.map Prod.fst).erase s.this_word).map (fun w => dicOther env s w n)
      = vs.map some)
    (hd : ((s.words.map Prod.fst).length : Int) - 1 ≠ 0) :
    dicCandidate env s best n =
      ((runningSumsFrom 0 vs).map
        (fun t => L - t / ((((s.words.map Prod.fst).length : Int) - 1 : Int) : ℚ))).foldl
        (fun b q => updateGt n b q) best := by
  rw [dicCandidate_eq_inner env s best n m L hm hL hmem]
  exact dicInner_all_ok env s L n _ vs 0 _ best hvs hd

theorem dic_candidate_amended_witness :
    dicCandidate envABC sABC (none, 0) 2 =
      ((runningSumsFrom 0 [-1, -1, -1]).map
        (fun t => (0 : ℚ) - t /
          ((((sABC.words.map Prod.fst).length : Int) - 1 : Int) : ℚ))).foldl
        (fun b q => updateGt 2 b q) (none, 0) :=
  dic_candidate_amended envABC sABC 2 ⟨2, flatT, 14⟩ 0 [-1, -1, -1] (none, 0)
    rfl rfl (by decide) rfl (by decide)

/-- Full description of a successful BIC candidate: the model is the one
fitted at `n` on the item's data, and the score is
`-2*logL + (n*(n-1) + 2*D*n) * log N` with `D` the feature dimensionality
(length of the first observation row) and `N` the number of frames. -/
theorem bicCandidate_spec (env : FitEnv) (s : ModelSelector) (n : Nat)
    (q : ℚ) (m : HMM) (h : bicCandidate env s n = some (q, m)) :
    m = ⟨n, s.X, s.random_state⟩ ∧
    ∃ row logL, s.X.rows.head? = some row ∧ env.score m s.X = some logL ∧
      q = -2 * logL +
        ((n * (n - 1) + 2 * row.length * n : ℕ) : ℚ) * env.log s.X.rows.length := by
  refine ⟨bicCandidate_model env s n q m h, ?_⟩
  unfold bicCandidate at h
  cases hb : base_model env s n with
  | none => rw [hb] at h; exact nomatch h
  | some m0 =>
    simp only [hb] at h
    cases hr : s.X.rows.head? with
    | none => rw [hr] at h; exact nomatch h
    | some row =>
      simp only [hr] at h
      cases hs : env.score m0 s.X with
      | none => rw [hs] at h; exact nomatch h
      | some logL =>
        simp only [hs] at h
        injection h with h1
        injection h1 with hq hm
        subst hm
        exact ⟨row, logL, rfl, hs, hq.symm⟩

/-- Claim C5: SelectorBIC — every candidate `n` in the inclusive range whose
fit succeeds scores `-2*logL + p*log(N)` with `p = n*(n-1) + 2*D*n`; the
minimum-score model across the range is returned; candidates that fail are
simply absent from the comparison; if every candidate fails,
`base_model(n_constant)` is returned. -/
theorem bic_select_spec (env : FitEnv) (s : ModelSelector) :
    (∀ n, n ∈ candidateRange s → ∀ q m, bicCandidate env s n = some (q, m) →
      m = ⟨n, s.X, s.random_state⟩ ∧
      ∃ row logL, s.X.rows.head? = some row ∧ env.score m s.X = some logL ∧
        q = -2 * logL +
          ((n * (n - 1) + 2 * row.length * n : ℕ) : ℚ) * env.log s.X.rows.length) ∧
    (∀ m, SelectorBIC.select env s = some m →
      (∃ n ∈ candidateRange s, ∃ q, bicCandidate env s n = some (q, m) ∧
        ∀ n' ∈ candidateRange s, ∀ q' m', bicCandidate env s n' = some (q', m') → q ≤ q') ∨
      ((∀ n ∈ candidateRange s, bicCandidate env s n = none) ∧
        SelectorBIC.select env s = base_model env s s.n_constant)) ∧
    ((∀ n ∈ candidateRange s, bicCandidate env s n = none) →
      SelectorBIC.select env s = base_model env s s.n_constant) := by
  have hall : (∀ n ∈ candidateRange s, bicCandidate env s n = none) →
      SelectorBIC.select env s = base_model env s s.n_constant := by
    intro hnone
    rw [bic_select_eq]
    have hfold : (candidateRange s).foldl
        (fun b n => updateMin b (bicCandidate env s n)) none = none := by
      refine foldlId _ _ _ (fun n hn x => ?_)
      rw [hnone n hn, updateMin_none_right]
    rw [hfold]
  refine ⟨fun n _ q m h => bicCandidate_spec env s n q m h, ?_, hall⟩
  intro m hm
  rw [bic_select_eq] at hm
  cases hf : (candidateRange s).foldl
      (fun b n => updateMin b (bicCandidate env s n)) none with
  | none =>
    rw [hf] at hm
    have hnone := (foldMin_none _ _ _ hf).2
    exact Or.inr ⟨hnone, hall hnone⟩
  | some p =>
    obtain ⟨q0, m0⟩ := p
    rw [hf] at hm
    replace hm : m0 = m := Option.some.inj hm
    subst hm
    obtain ⟨hmem, -, hmin⟩ := foldMin_spec _ _ _ q0 m0 hf
    rcases hmem with hb | ⟨n, hn, hc⟩
    · exact nomatch hb
    · exact Or.inl ⟨n, hn, q0, hc, hmin⟩

theorem bic_select_spec_witness :
    (⟨2, flatT, 14⟩ : HMM) = ⟨2, sABC.X, sABC.random_state⟩ ∧
    ∃ row logL, sABC.X.rows.head? = some row ∧
      envABC.score ⟨2, flatT, 14⟩ sABC.X = some logL ∧
      (0 : ℚ) = -2 * logL +
        ((2 * (2 - 1) + 2 * row.length * 2 : ℕ) : ℚ) * envABC.log sABC.X.rows.length :=
  (bic_select_spec envABC sABC).1 2 (by decide) 0 ⟨2, flatT, 14⟩ (by
    have hbm : base_model envABC sABC 2 = some ⟨2, flatT, 14⟩ := rfl
    have hh : sABC.X.rows.head? = some [0] := rfl
    have hsc : envABC.score ⟨2, flatT, 14⟩ sABC.X = some 0 := rfl
    have hlog : envABC.log sABC.X.rows.length = 0 := rfl
    norm_num [bicCandidate, hbm, hh, hsc, hlog])

/-- Claim C2 failing input: with a stub fitter/scorer returning the constant
log-likelihood `6` on every fold (5 folds over 5 sequences), the candidate's
score computed by the code is `6/5` — the code overwrites the accumulator
with each fold's log-likelihood instead of summing, so it ends up dividing
the last fold's log-likelihood by the fold count — while the claim's
fold-average of a constant must equal the constant `6`. -/
theorem cv_score_overwrites_eval :
    cvCandidate envCV sCV 2 = some (6 / 5, some ⟨2, flatCV, 14⟩) ∧
    (6 / 5 : ℚ) ≠ 6 := by
  constructor
  · have hp : cvScoredPairs envCV sCV 2 =
        (kfoldTrainSets 5 5).map
          (fun tr => (some ⟨2, flatCV, 14⟩, combine_sequences tr seqsCV)) := rfl
    have hk : kfoldTrainSets 5 5 =
        [[1, 2, 3, 4], [0, 2, 3, 4], [0, 1, 3, 4], [0, 1, 2, 4], [0, 1, 2, 3]] := rfl
    have hlen : sCV.sequences.length = 5 := rfl
    have hscv : ∀ m d, envCV.score m d = some 6 := fun _ _ => rfl
    have hbm : base_model envCV sCV 2 = some ⟨2, flatCV, 14⟩ := rfl
    norm_num [cvCandidate, hp, hk, hlen, hscv, hbm]
  · norm_num

/-- Claim C4 failing input: in the first cross-validation fold the scored
model was fitted on the item's full flattened data (`self.X`), not on the
fold's training sequences flattened via `combine_sequences` — the two are
different data. -/
theorem cv_fit_on_full_data_eval :
    (cvScoredPairs envCV sCV 2).head? =
      some (some ⟨2, flatCV, 14⟩, combine_sequences [1, 2, 3, 4] sCV.sequences) ∧
    (⟨2, flatCV, 14⟩ : HMM).trainX ≠ combine_sequences [1, 2, 3, 4] sCV.sequences :=
  ⟨rfl, by decide⟩

